import Mathlib

/-!
Verification of the AtlasTerritoryMap territory-map generator.

Shallow embedding of the Go sources `tribeCount.go` and `territoryServer.go`:
pure fragments become Lean functions; machine integers (`uint16`, `uint32`,
`uint64`) become `Nat` with explicit `% 2^w` at the points where the Go code
performs a narrowing conversion; `float64` arithmetic on coordinates is
modelled with exact rationals `ℚ` (all reasoning here is about comparisons and
affine transforms whose outcomes coincide with the exact values on the ranges
involved).
-/

namespace AtlasMap

/- ---------------------------------------------------------------- -/
/- §1  tribeCount.go : TribeCount and TopNTribes                    -/
/- ---------------------------------------------------------------- -/

/-- `TribeCount` from tribeCount.go: per-tribe number of markers.
`tribeID` is a `uint64`, `count` a `uint32`; both are modelled as `Nat`
(no arithmetic is performed on them, only comparisons). -/
structure TribeCount where
  tribeID : Nat
  count : Nat
deriving DecidableEq, Repr

/-- The comparison closure passed to `sort.SliceStable` inside `TopNTribes`
(tribeCount.go lines 54-62): `tcLess a b` is `true` when `a` must sort
strictly before `b`.

```go
if pq[i].count < pq[j].count { return false }
else if pq[i].count == pq[j].count { return pq[i].tribeID > pq[j].tribeID }
else { return true }
```
-/
def tcLess (a b : TribeCount) : Bool :=
  if a.count < b.count then false
  else if a.count = b.count then decide (a.tribeID > b.tribeID)
  else true

/-- The non-strict order induced by `tcLess`: `a` is allowed to appear
(weakly) before `b` in the sorted slice, i.e. `b` does not sort strictly
before `a`. -/
def tcLe (a b : TribeCount) : Prop := tcLess b a = false

instance : DecidableRel tcLe := fun _ _ => inferInstanceAs (Decidable (_ = false))

theorem tcLe_iff (a b : TribeCount) :
    tcLe a b ↔ b.count < a.count ∨ (a.count = b.count ∧ b.tribeID ≤ a.tribeID) := by
  unfold tcLe tcLess
  by_cases h1 : b.count < a.count <;> by_cases h2 : b.count = a.count <;>
    simp [h1, h2] <;> omega

instance : IsTotal TribeCount tcLe where
  total a b := by
    rw [tcLe_iff, tcLe_iff]
    omega

instance : IsTrans TribeCount tcLe where
  trans a b c hab hbc := by
    rw [tcLe_iff] at *
    omega

instance : IsAntisymm TribeCount tcLe where
  antisymm a b hab hba := by
    rw [tcLe_iff] at hab hba
    have h1 : a.count = b.count := by omega
    have h2 : a.tribeID = b.tribeID := by omega
    cases a; cases b; simp_all

/-- `TopNTribes` from tribeCount.go (lines 44-70).  The Go function copies the
map values into a slice (the `heap.Init` call only permutes that slice), sorts
the slice with `sort.SliceStable` under the comparator `tcLess`, and returns
the `tribeID`s of the first `min(n, len)` entries.  Since `tcLe` is a total,
transitive and antisymmetric order, every arrangement of a given multiset
that is sorted under the comparator is the same list, so the result does not
depend on the map iteration order nor on the heap permutation; it equals the
insertion sort of the input under `tcLe`.  The input map is modelled as the
list of its values. -/
def TopNTribes (n : Nat) (counts : List TribeCount) : List Nat :=
  ((counts.insertionSort tcLe).take n).map TribeCount.tribeID

/-- `TribeCountHeap.Less` (tribeCount.go lines 25-33, identical in the legacy
copy at territoryServer.go lines 824-832): a min-heap order, count first and
`tribeID` as tie break.

```go
if h[i].count < h[j].count { return true }
else if h[i].count == h[j].count { return h[i].tribeID < h[j].tribeID }
else { return false }
```
-/
def tcLessHeap (a b : TribeCount) : Bool :=
  if a.count < b.count then true
  else if a.count = b.count then decide (a.tribeID < b.tribeID)
  else false

/-- Read slot `i` of the heap's backing slice (all accesses below stay in
bounds; the default is Go's zero value). -/
def tcGet (l : List TribeCount) (i : Nat) : TribeCount :=
  l.getD i ⟨0, 0⟩

/-- `TribeCountHeap.Swap`: exchange slots `i` and `j` of the backing slice. -/
def tcSwap (l : List TribeCount) (i j : Nat) : List TribeCount :=
  (l.set i (tcGet l j)).set j (tcGet l i)

/-- `h.Less(i, j)` on the backing slice. -/
def heapCellLess (l : List TribeCount) (i j : Nat) : Bool :=
  tcLessHeap (tcGet l i) (tcGet l j)

/-- `container/heap`'s `down` (sift-down) specialised to `TribeCountHeap`,
with the loop unrolled by structural fuel: the loop index `i` strictly
increases each iteration and the loop exits once `2*i+1 ≥ n`, so `n` units
of fuel always run the loop to completion (the fuel-out branch is never
reached when `fuel ≥ n`):

```go
for {
    j1 := 2*i + 1
    if j1 >= n || j1 < 0 { break }
    j := j1
    if j2 := j1 + 1; j2 < n && h.Less(j2, j1) { j = j2 }
    if !h.Less(j, i) { break }
    h.Swap(i, j)
    i = j
}
```
-/
def heapDownGo : Nat → List TribeCount → Nat → Nat → List TribeCount
  | 0, l, _, _ => l
  | fuel + 1, l, i, n =>
    if 2 * i + 1 < n then
      let j :=
        if 2 * i + 2 < n ∧ heapCellLess l (2 * i + 2) (2 * i + 1) = true then
          2 * i + 2
        else 2 * i + 1
      if heapCellLess l j i then heapDownGo fuel (tcSwap l i j) j n else l
    else l

/-- `down(h, i, n)` with enough fuel for any start index below `n`. -/
def heapDown (l : List TribeCount) (i n : Nat) : List TribeCount :=
  heapDownGo n l i n

/-- `container/heap`'s `up` (sift-up), with the loop unrolled by structural
fuel: the index `j` strictly decreases and the loop stops at `j = 0`
(`(j-1)/2 == j` there, in Go's truncating and in Nat division alike), so
`j + 1` units of fuel always complete it:

```go
for {
    i := (j - 1) / 2
    if i == j || !h.Less(j, i) { break }
    h.Swap(i, j)
    j = i
}
```
-/
def heapUpGo : Nat → List TribeCount → Nat → List TribeCount
  | 0, l, _ => l
  | fuel + 1, l, j =>
    if (j - 1) / 2 = j ∨ heapCellLess l j ((j - 1) / 2) = false then l
    else heapUpGo fuel (tcSwap l ((j - 1) / 2) j) ((j - 1) / 2)

/-- `up(h, j)` with enough fuel. -/
def heapUp (l : List TribeCount) (j : Nat) : List TribeCount :=
  heapUpGo (j + 1) l j

/-- The descending loop of `heap.Init`: `for i := n/2 - 1; i >= 0; i--`
applies `down(h, i, n)`; the counter argument is one past the next index. -/
def heapInitLoop (n : Nat) : Nat → List TribeCount → List TribeCount
  | 0, l => l
  | k + 1, l => heapInitLoop n k (heapDown l k n)

/-- `heap.Init(&pq)`. -/
def heapInit (l : List TribeCount) : List TribeCount :=
  heapInitLoop l.length (l.length / 2) l

/-- `heap.Push(&pq, v)`: `TribeCountHeap.Push` appends, then `up` at the
last index. -/
def heapPush (l : List TribeCount) (v : TribeCount) : List TribeCount :=
  heapUp (l ++ [v]) l.length

/-- `heap.Pop(&pq)`, keeping only the slice (the popped minimum is discarded
by the caller): swap slot 0 with the last slot, sift down over the shortened
prefix, drop the last slot. -/
def heapPopList (l : List TribeCount) : List TribeCount :=
  (heapDown (tcSwap l 0 (l.length - 1)) 0 (l.length - 1)).take (l.length - 1)

/-- One iteration of the range-over-map loop in the legacy `TopNTribes`
(territoryServer.go lines 846-862): the state is the backing slice and the
running element index `i`; the first `n` elements are appended raw, the
`(n+1)`-st triggers `heap.Init`, and every later element is pushed with the
minimum popped whenever the heap exceeds `n` entries. -/
def topNHeapStep (n : Nat) (st : List TribeCount × Nat) (v : TribeCount) :
    List TribeCount × Nat :=
  if st.2 < n then (st.1 ++ [v], st.2 + 1)
  else
    let pq1 := if st.2 = n then heapInit st.1 else st.1
    let pq2 := heapPush pq1 v
    let pq3 := if n < pq2.length then heapPopList pq2 else pq2
    (pq3, st.2 + 1)

/-- The legacy heap-based `TopNTribes` appended to territoryServer.go
(lines 843-871), as a function of the map's iteration order: fold the loop
body over the elements, run the trailing `heap.Init` when at most `n`
elements were seen, then emit `pq[i].tribeID` for
`i = Min(n, len(pq))-1` down to `0` — i.e. the heap's backing array read in
reverse index order, which orders a heap of at most two elements but is not
in general a sorted arrangement. -/
def TopNTribesHeap (n : Nat) (counts : List TribeCount) : List Nat :=
  let st := counts.foldl (topNHeapStep n) ([], 0)
  let pq := if st.2 ≤ n then heapInit st.1 else st.1
  ((pq.take (min n pq.length)).map TribeCount.tribeID).reverse

/-- The composite sort key as the spec words it, amended to the direction the
code implements: count descending, and on count ties ownerID *descending*. -/
def specTopNKey (a b : TribeCount) : Prop :=
  b.count < a.count ∨ (a.count = b.count ∧ b.tribeID ≤ a.tribeID)

instance : DecidableRel specTopNKey := fun a b =>
  inferInstanceAs (Decidable (_ < _ ∨ (a.count = b.count ∧ _ ≤ _)))

instance : IsTotal TribeCount specTopNKey where
  total a b := by unfold specTopNKey; omega

instance : IsTrans TribeCount specTopNKey where
  trans a b c hab hbc := by unfold specTopNKey at *; omega

theorem tcLe_eq_specTopNKey (a b : TribeCount) : tcLe a b ↔ specTopNKey a b :=
  tcLe_iff a b

theorem insertionSort_tcLe_eq_spec (l : List TribeCount) :
    l.insertionSort tcLe = l.insertionSort specTopNKey := by
  apply List.eq_of_perm_of_sorted (r := tcLe)
  · exact (List.perm_insertionSort tcLe l).trans (List.perm_insertionSort specTopNKey l).symm
  · exact List.sorted_insertionSort tcLe l
  · have h := List.sorted_insertionSort specTopNKey l
    exact h.imp (fun {a b} hab => (tcLe_eq_specTopNKey a b).mpr hab)

/- ---------------------------------------------------------------- -/
/- §2  territoryServer.go : CRC-32 and the change fingerprint       -/
/- ---------------------------------------------------------------- -/

/-- One bit step of the reflected CRC-32 update (IEEE polynomial
`0xEDB88320`), as computed by Go's `hash/crc32` package for
`crc32.IEEETable`. -/
def crc32Step (c : Nat) : Nat :=
  if c % 2 = 1 then (c / 2) ^^^ 0xEDB88320 else c / 2

/-- Absorb one byte into a running CRC-32 state. -/
def crc32Byte (c b : Nat) : Nat :=
  crc32Step^[8] (c ^^^ (b % 256))

/-- `crc32.ChecksumIEEE` over a byte sequence: initial state `0xFFFFFFFF`,
per-byte reflected update, final xor with `0xFFFFFFFF`. -/
def crc32 (bytes : List Nat) : Nat :=
  (bytes.foldl crc32Byte 0xFFFFFFFF) ^^^ 0xFFFFFFFF

/-- Little-endian 4-byte encoding of a `uint32` value, as produced by
`binary.Write(hash, binary.LittleEndian, crc)`. -/
def le32 (v : Nat) : List Nat :=
  [v % 256, v / 256 % 256, v / 65536 % 256, v / 16777216 % 256]

/-- The change fingerprint computed by `fetchClaimMarkers`
(territoryServer.go lines 622-664) as a function of the list of raw redis
records (each a byte sequence), in ingestion order: take the CRC-32 of every
raw record, sort the checksums ascending (`sort.Slice` under `<` on distinct
values is the unique sorted arrangement; equal checksums are
indistinguishable, so any sorted arrangement is the same list), then CRC-32
the concatenation of their little-endian encodings. -/
def fingerprint (records : List (List Nat)) : Nat :=
  crc32 ((((records.map crc32).insertionSort (· ≤ ·)).map le32).flatten)

/-- Helper: the fingerprint depends only on the multiset of raw records. -/
theorem fingerprint_perm {l₁ l₂ : List (List Nat)} (h : List.Perm l₁ l₂) :
    fingerprint l₁ = fingerprint l₂ := by
  unfold fingerprint
  congr 1
  have hperm : List.Perm (l₁.map crc32) (l₂.map crc32) := h.map crc32
  have hs : (l₁.map crc32).insertionSort (· ≤ ·) =
      (l₂.map crc32).insertionSort (· ≤ ·) := by
    apply List.eq_of_perm_of_sorted (r := (· ≤ · : Nat → Nat → Prop))
    · exact (List.perm_insertionSort _ _).trans
        (hperm.trans (List.perm_insertionSort _ _).symm)
    · exact List.sorted_insertionSort _ _
    · exact List.sorted_insertionSort _ _
  rw [hs]

/- ---------------------------------------------------------------- -/
/- §3  territoryServer.go : owner classification and colors         -/
/- ---------------------------------------------------------------- -/

/-- `color.NRGBA` values as stored in the `colorValues` map. -/
structure Nrgba where
  r : Nat
  g : Nat
  b : Nat
  a : Nat
deriving DecidableEq, Repr

/-- The `colors` palette array (territoryServer.go lines 138-157); all other
entries are commented out in the source. -/
def colorsArr : List String := ["yellow", "blue", "purple", "coral"]

/-- The `colorValues` map (territoryServer.go lines 158-179), modelled as a
total function; a missing key yields the Go zero value. -/
def colorValues (s : String) : Nrgba :=
  if s = "black" then ⟨0x00, 0x00, 0x00, 0xff⟩
  else if s = "gray" then ⟨0xa9, 0xa9, 0xa9, 0xff⟩
  else if s = "yellow" then ⟨0xff, 0xff, 0x00, 0xff⟩
  else if s = "blue" then ⟨0x00, 0x00, 0xff, 0xff⟩
  else if s = "purple" then ⟨0x80, 0x00, 0x80, 0xff⟩
  else if s = "coral" then ⟨0xff, 0x7f, 0x50, 0xff⟩
  else ⟨0, 0, 0, 0⟩

/-- `isTribeID` (territoryServer.go lines 262-264):
`return tribeID > 1000000000+50000`. -/
def isTribeID (tribeID : Nat) : Bool :=
  decide (tribeID > 1000000000 + 50000)

/-- `getTribeColor` (territoryServer.go lines 266-277). -/
def getTribeColor (tribeID : Nat) : Nrgba :=
  if tribeID = 0 then colorValues "black"
  else if !(isTribeID tribeID) then colorValues "gray"
  else colorValues (colorsArr.getD (tribeID % colorsArr.length) "")

/- ---------------------------------------------------------------- -/
/- §4  territoryServer.go : clip window, gutter filter, quad tree   -/
/- ---------------------------------------------------------------- -/

/-- The `opts.virtualClip` rectangle, with the inclusive corner fields the
code reads (`Min.X`, `Max.X`, `Min.Y`, `Max.Y`).  The source stores `int`
coordinates; they are modelled as rationals since all uses mix them into
`float64` arithmetic. -/
structure Clip where
  minX : ℚ
  maxX : ℚ
  minY : ℚ
  maxY : ℚ

/-- The gutter filter shared by `generateImage` (lines 378-384) and
`generateCompressedFile` (lines 461-467): the entity at virtual position
`(px, py)` is kept (processed) iff the `continue` guard does not fire:

```go
tX := vb.x - float64(opts.virtualClip.Min.X)
tY := vb.y - float64(opts.virtualClip.Min.Y)
if tX < -virtualWaterRadius || tY < -virtualWaterRadius ||
   tX >= float64(opts.virtualClip.Max.X)+virtualWaterRadius ||
   tY >= float64(opts.virtualClip.Max.Y)+virtualWaterRadius { continue }
```
-/
def gutterKeep (c : Clip) (virtualWaterRadius px py : ℚ) : Prop :=
  ¬ (px - c.minX < -virtualWaterRadius ∨ py - c.minY < -virtualWaterRadius ∨
     px - c.minX ≥ c.maxX + virtualWaterRadius ∨ py - c.minY ≥ c.maxY + virtualWaterRadius)

instance (c : Clip) (r px py : ℚ) : Decidable (gutterKeep c r px py) :=
  inferInstanceAs (Decidable (¬ _))

/-- Modelled from the spec: the quad-tree `Query` of the external
`goquadtree` package is not part of this repository; §4.2 of the spec says it
"returns all entities whose box intersects the requested window", the box of
an entity being `[x - r, x + r] × [y - r, y + r]` with `r` the virtual water
radius.  `queryHit c r px py` states that the entity at `(px, py)` is
returned by the query for window `c`. -/
def queryHit (c : Clip) (r px py : ℚ) : Prop :=
  px - r ≤ c.maxX ∧ c.minX ≤ px + r ∧ py - r ≤ c.maxY ∧ c.minY ≤ py + r

/-- Modelled from the spec: the clip window expanded on every side by the
gutter radius, with its boundary included — the region in which claim C2
says an entity is processed. -/
def insideExpanded (c : Clip) (r px py : ℚ) : Prop :=
  c.minX - r ≤ px ∧ px ≤ c.maxX + r ∧ c.minY - r ≤ py ∧ py ≤ c.maxY + r

/- ---------------------------------------------------------------- -/
/- §5  territoryServer.go : float → uint16 conversion (claim lists) -/
/- ---------------------------------------------------------------- -/

/-- Truncation toward zero of a rational, the rounding that the amd64 code
generated for Go's `uint16(f)` conversion applies to the `float64` before
keeping the low 16 bits (`Int.tdiv` on a reduced fraction truncates toward
zero). -/
def ratTrunc (q : ℚ) : Int :=
  Int.tdiv q.num (q.den : Int)

/-- Go's narrowing conversion `uint16(f)` for a `float64` `f`, as compiled on
amd64: truncate toward zero to an integer, keep the low 16 bits
(two's-complement wrap; `Int.emod` of a positive modulus is non-negative). -/
def goFloatToUInt16 (q : ℚ) : Nat :=
  (ratTrunc q % 65536).toNat

/-- The per-entity step of `generateCompressedFile`'s query loop
(territoryServer.go lines 457-489), for the entity at virtual position
`(px, py)`: if the gutter filter keeps the entity, the claim entry
`(uint16(iX), uint16(iY))` with `iX = tX * virtualToActual` is appended to
the owner's land or water claim list; otherwise the entity contributes
nothing (`continue`). -/
def processEntity (c : Clip) (virtualWaterRadius virtualToActual px py : ℚ) :
    Option (Nat × Nat) :=
  if gutterKeep c virtualWaterRadius px py then
    some (goFloatToUInt16 ((px - c.minX) * virtualToActual),
          goFloatToUInt16 ((py - c.minY) * virtualToActual))
  else none

/- ---------------------------------------------------------------- -/
/- §6  territoryServer.go : compressed world snapshot serialization -/
/- ---------------------------------------------------------------- -/

/-- `ClaimFlagOutputEntry` (uint16 pixel coordinates). -/
structure ClaimFlagOutputEntry where
  X : Nat
  Y : Nat
deriving DecidableEq, Repr

/-- `FlagOwnerOutputHeader`: one owner's aggregated claim lists. -/
structure FlagOwnerOutputHeader where
  TribeOrPlayerID : Nat
  LandClaims : List ClaimFlagOutputEntry
  WaterClaims : List ClaimFlagOutputEntry
deriving DecidableEq, Repr

/-- The order from `ByTribeOrPlayerID.Less` (territoryServer.go line 73),
taken non-strictly: `sort.Sort` produces an arrangement sorted under this
relation, and on lists whose IDs are pairwise distinct that arrangement is
unique, so the encoder below may use `insertionSort` under it. -/
def ownerLe (a b : FlagOwnerOutputHeader) : Prop :=
  a.TribeOrPlayerID ≤ b.TribeOrPlayerID

instance : DecidableRel ownerLe := fun a b =>
  inferInstanceAs (Decidable (a.TribeOrPlayerID ≤ b.TribeOrPlayerID))

instance : IsTotal FlagOwnerOutputHeader ownerLe where
  total a b := Nat.le_total a.TribeOrPlayerID b.TribeOrPlayerID

instance : IsTrans FlagOwnerOutputHeader ownerLe where
  trans _ _ _ hab hbc := Nat.le_trans hab hbc

/-- `binary.LittleEndian.PutUint16`: two little-endian bytes of the low 16
bits of the value. -/
def putU16 (v : Nat) : List Nat := [v % 256, v / 256 % 256]

/-- `binary.LittleEndian.PutUint32`. -/
def putU32 (v : Nat) : List Nat := le32 v

/-- `binary.LittleEndian.PutUint64`. -/
def putU64 (v : Nat) : List Nat :=
  [v % 256, v / 256 % 256, v / 65536 % 256, v / 16777216 % 256,
   v / 4294967296 % 256, v / 1099511627776 % 256,
   v / 281474976710656 % 256, v / 72057594037927936 % 256]

/-- The bytes written for one claim entry: `u16 x` then `u16 y`. -/
def encodeEntry (e : ClaimFlagOutputEntry) : List Nat :=
  putU16 e.X ++ putU16 e.Y

/-- The bytes written for one owner record (territoryServer.go lines
526-559): `u64 ownerID`, `u32 landClaimCount`, `u32 waterClaimCount`, the
land entries, then the water entries. -/
def encodeOwner (k : FlagOwnerOutputHeader) : List Nat :=
  putU64 k.TribeOrPlayerID ++
  putU32 k.LandClaims.length ++ putU32 k.WaterClaims.length ++
  (k.LandClaims.map encodeEntry).flatten ++
  (k.WaterClaims.map encodeEntry).flatten

/-- The full byte stream written by `generateCompressedFile`
(territoryServer.go lines 491-559) as a function of the owner aggregates
(`IDMap`, modelled as the list of its values), the source resolution
(`SrcPixels = uint16(opts.actualPixels)`) and `config.GameSize`:
`FileVerison = 2`, `CompressionType = 1`, source and destination widths, the
owner count, then each owner sorted ascending by `TribeOrPlayerID`. -/
def generateCompressedBytes (SrcPixels GameSize : Nat)
    (IDList : List FlagOwnerOutputHeader) : List Nat :=
  putU16 2 ++ putU16 1 ++ putU16 SrcPixels ++ putU16 GameSize ++
  putU32 IDList.length ++
  ((IDList.insertionSort ownerLe).map encodeOwner).flatten

/-- Well-formedness of one owner aggregate as the Go types guarantee it:
the ID fits a `uint64`, the claim counts fit a `uint32`, and every claim
coordinate fits a `uint16` (the source stores them as those machine types). -/
def ownerWF (k : FlagOwnerOutputHeader) : Prop :=
  k.TribeOrPlayerID < 18446744073709551616 ∧
  k.LandClaims.length < 4294967296 ∧
  k.WaterClaims.length < 4294967296 ∧
  (∀ e ∈ k.LandClaims, e.X < 65536 ∧ e.Y < 65536) ∧
  (∀ e ∈ k.WaterClaims, e.X < 65536 ∧ e.Y < 65536)

instance (k : FlagOwnerOutputHeader) : Decidable (ownerWF k) := by
  unfold ownerWF
  infer_instance

/-- Modelled from the spec: a decoder for the world snapshot grammar of
spec §6 (this repository ships no decoder; the game client consuming the
format is external).  `readU16` reads one little-endian `u16`. -/
def readU16 : List Nat → Option (Nat × List Nat)
  | b0 :: b1 :: rest => some (b0 + 256 * b1, rest)
  | _ => none

/-- Modelled from the spec: read one little-endian `u32`. -/
def readU32 : List Nat → Option (Nat × List Nat)
  | b0 :: b1 :: b2 :: b3 :: rest =>
      some (b0 + 256 * b1 + 65536 * b2 + 16777216 * b3, rest)
  | _ => none

/-- Modelled from the spec: read one little-endian `u64`. -/
def readU64 : List Nat → Option (Nat × List Nat)
  | b0 :: b1 :: b2 :: b3 :: b4 :: b5 :: b6 :: b7 :: rest =>
      some (b0 + 256 * b1 + 65536 * b2 + 16777216 * b3 +
            4294967296 * b4 + 1099511627776 * b5 +
            281474976710656 * b6 + 72057594037927936 * b7, rest)
  | _ => none

/-- Modelled from the spec: read `n` claim coordinate pairs `(u16 x, u16 y)`. -/
def readPairs : Nat → List Nat → Option (List ClaimFlagOutputEntry × List Nat)
  | 0, bs => some ([], bs)
  | n + 1, bs => do
      let (x, bs1) ← readU16 bs
      let (y, bs2) ← readU16 bs1
      let (ps, bs3) ← readPairs n bs2
      some (⟨x, y⟩ :: ps, bs3)

/-- Modelled from the spec: read one owner record of the grammar in §6. -/
def readOwner (bs : List Nat) : Option (FlagOwnerOutputHeader × List Nat) := do
  let (id, bs1) ← readU64 bs
  let (lc, bs2) ← readU32 bs1
  let (wc, bs3) ← readU32 bs2
  let (land, bs4) ← readPairs lc bs3
  let (water, bs5) ← readPairs wc bs4
  some (⟨id, land, water⟩, bs5)

/-- Modelled from the spec: read `n` consecutive owner records. -/
def readOwners : Nat → List Nat → Option (List FlagOwnerOutputHeader × List Nat)
  | 0, bs => some ([], bs)
  | n + 1, bs => do
      let (o, bs1) ← readOwner bs
      let (os, bs2) ← readOwners n bs1
      some (o :: os, bs2)

/-- Modelled from the spec: decode a full world snapshot byte stream,
requiring that the stream is consumed exactly.  Returns
`(formatVersion, encodingFlag, sourceResolution, destResolution, owners)`. -/
def decodeSnapshot (bs : List Nat) :
    Option (Nat × Nat × Nat × Nat × List FlagOwnerOutputHeader) := do
  let (ver, bs1) ← readU16 bs
  let (flag, bs2) ← readU16 bs1
  let (src, bs3) ← readU16 bs2
  let (dest, bs4) ← readU16 bs3
  let (cnt, bs5) ← readU32 bs4
  let (owners, bs6) ← readOwners cnt bs5
  if bs6 = [] then some (ver, flag, src, dest, owners) else none

/- ---------------------------------------------------------------- -/
/- §7  territoryServer.go : tile pyramid partitioning               -/
/- ---------------------------------------------------------------- -/

/-- The per-tile parameters `generateTiles` passes to `generateImage`:
tile indices, the inclusive `virtualClip` corners, and the `MapOptions`
resolution fields. -/
structure TileJob where
  tileX : Nat
  tileY : Nat
  minX : Nat
  maxX : Nat
  minY : Nat
  maxY : Nat
  actualPixels : Nat
  virtualPixels : Nat
deriving DecidableEq, Repr

/-- `generateTiles` (territoryServer.go lines 571-594), with the rendering
and file output abstracted away: the list of tile jobs issued for one zoom
level, in the source's loop order (outer `tileX`, inner `tileY`):

```go
opts.actualPixels = config.TileSize
opts.virtualPixels = config.TileSize * (1 << (config.MaxZoom - 1))
tiles := 1 << zoomLevel
virtualPixelsPerTile := opts.virtualPixels / tiles
...
minX := tileX * virtualPixelsPerTile
maxX := minX + virtualPixelsPerTile - 1
```
-/
def generateTiles (TileSize MaxZoom zoomLevel : Nat) : List TileJob :=
  let virtualPixels := TileSize * 2 ^ (MaxZoom - 1)
  let tiles := 2 ^ zoomLevel
  let virtualPixelsPerTile := virtualPixels / tiles
  ((List.range tiles).map (fun tileX =>
    (List.range tiles).map (fun tileY =>
      { tileX := tileX
        tileY := tileY
        minX := tileX * virtualPixelsPerTile
        maxX := tileX * virtualPixelsPerTile + virtualPixelsPerTile - 1
        minY := tileY * virtualPixelsPerTile
        maxY := tileY * virtualPixelsPerTile + virtualPixelsPerTile - 1
        actualPixels := TileSize
        virtualPixels := virtualPixels }))).flatten

/- ---------------------------------------------------------------- -/
/- §8  territoryServer.go : background worker cycles                -/
/- ---------------------------------------------------------------- -/

/-- One iteration of the `tileBackgroundWorker` loop (territoryServer.go
lines 694-713) as a state transformer: the state is `previousCrc`, the
input is the raw-record snapshot fetched this cycle, the returned `Bool`
says whether tile generation (and hence any artifact write) ran this
cycle.  `fetchClaimMarkers`'s fingerprint of the snapshot is compared with
the stored one; on a match the cycle only logs and sleeps. -/
def tileWorkerCycle (previousCrc : Nat) (records : List (List Nat)) :
    Nat × Bool :=
  let crc := fingerprint records
  if crc ≠ previousCrc then (crc, true) else (previousCrc, false)

/-- One iteration of the `gameBackgroundWorker` loop (territoryServer.go
lines 723-739); the skip logic is identical to the tile worker, only the
generated artifact differs. -/
def gameWorkerCycle (previousCrc : Nat) (records : List (List Nat)) :
    Nat × Bool :=
  let crc := fingerprint records
  if crc ≠ previousCrc then (crc, true) else (previousCrc, false)

/- ---------------------------------------------------------------- -/
/- §9  Claim theorems                                               -/
/- ---------------------------------------------------------------- -/

/-- C1, counterexample: with counts `{10 ↦ 5, 20 ↦ 5, 5 ↦ 3}` and `n = 2`,
neither implementation of `TopNTribes` returns `[10, 20]`: the comparator
passed to `sort.SliceStable` in tribeCount.go breaks count ties by *higher*
tribeID first, giving `[20, 10]`, and the legacy heap variant in
territoryServer.go returns `[20, 10]` under every iteration order of the
map (all six permutations checked). -/
theorem topNTribes_claim_counterexample :
    TopNTribes 2 [⟨10, 5⟩, ⟨20, 5⟩, ⟨5, 3⟩] ≠ [10, 20] ∧
    TopNTribesHeap 2 [⟨10, 5⟩, ⟨20, 5⟩, ⟨5, 3⟩] = [20, 10] ∧
    TopNTribesHeap 2 [⟨10, 5⟩, ⟨5, 3⟩, ⟨20, 5⟩] = [20, 10] ∧
    TopNTribesHeap 2 [⟨20, 5⟩, ⟨10, 5⟩, ⟨5, 3⟩] = [20, 10] ∧
    TopNTribesHeap 2 [⟨20, 5⟩, ⟨5, 3⟩, ⟨10, 5⟩] = [20, 10] ∧
    TopNTribesHeap 2 [⟨5, 3⟩, ⟨10, 5⟩, ⟨20, 5⟩] = [20, 10] ∧
    TopNTribesHeap 2 [⟨5, 3⟩, ⟨20, 5⟩, ⟨10, 5⟩] = [20, 10] ∧
    ([20, 10] : List Nat) ≠ [10, 20] := by
  decide

/-- C1, amended: the tribeCount.go `TopNTribes` returns the owner IDs of the
first `n` entries of the full sort by the composite key
(count descending, ownerID *descending*), an ordered sequence of length
`min(n, number of entries)`; with counts `{10 ↦ 5, 20 ↦ 5, 5 ↦ 3}` and
`n = 2` both implementations return `[20, 10]`.  The legacy heap variant in
territoryServer.go does *not* satisfy the full-sort ordering contract: it
emits the heap's backing array in reverse index order, which need not be a
sorted arrangement — for counts `{1 ↦ 1, 2 ↦ 2, 3 ↦ 3}`, `n = 3` and
iteration order `(2, 3, 1)` it returns `[2, 3, 1]`, while the composite-key
sort of those counts is `[3, 2, 1]`. -/
theorem topNTribes_amended (n : Nat) (l : List TribeCount) :
    TopNTribes n l = ((l.insertionSort specTopNKey).take n).map TribeCount.tribeID ∧
    (TopNTribes n l).length = min n l.length ∧
    TopNTribes 2 [⟨10, 5⟩, ⟨20, 5⟩, ⟨5, 3⟩] = [20, 10] ∧
    TopNTribesHeap 2 [⟨10, 5⟩, ⟨20, 5⟩, ⟨5, 3⟩] = [20, 10] ∧
    TopNTribesHeap 3 [⟨2, 2⟩, ⟨3, 3⟩, ⟨1, 1⟩] = [2, 3, 1] ∧
    (([⟨2, 2⟩, ⟨3, 3⟩, ⟨1, 1⟩] : List TribeCount).insertionSort
        specTopNKey).map TribeCount.tribeID = [3, 2, 1] := by
  refine ⟨?_, ?_, by decide, by decide, by decide, by decide⟩
  · unfold TopNTribes
    rw [insertionSort_tcLe_eq_spec]
  · unfold TopNTribes
    rw [List.length_map, List.length_take, List.length_insertionSort]

/-- C10: the output of `TopNTribes` is a deterministic function of `n` and
the *contents* of the counts map: for any two iteration orders (any two
permutations of the list of map values) the returned sequence is identical,
because the sort comparator is a total, transitive and antisymmetric order
on the entries. -/
theorem topNTribes_deterministic (n : Nat) (l₁ l₂ : List TribeCount)
    (h : List.Perm l₁ l₂) : TopNTribes n l₁ = TopNTribes n l₂ := by
  unfold TopNTribes
  have hs : l₁.insertionSort tcLe = l₂.insertionSort tcLe :=
    List.eq_of_perm_of_sorted
      ((List.perm_insertionSort tcLe l₁).trans
        (h.trans (List.perm_insertionSort tcLe l₂).symm))
      (List.sorted_insertionSort tcLe l₁)
      (List.sorted_insertionSort tcLe l₂)
  rw [hs]

/-- C10, witness: the determinism theorem applied to two concrete iteration
orders of the same three-entry map. -/
theorem topNTribes_deterministic_witness :
    TopNTribes 2 [⟨10, 5⟩, ⟨20, 5⟩, ⟨5, 3⟩] =
      TopNTribes 2 [⟨5, 3⟩, ⟨10, 5⟩, ⟨20, 5⟩] :=
  topNTribes_deterministic 2 _ _ (by decide)

/-- C3: the change fingerprint computed by `fetchClaimMarkers` is identical
for every permutation of the raw records: it depends only on the multiset of
records, because the per-record CRC-32 checksums are sorted ascending before
being folded. -/
theorem fingerprint_order_independent (l₁ l₂ : List (List Nat))
    (h : List.Perm l₁ l₂) : fingerprint l₁ = fingerprint l₂ :=
  fingerprint_perm h

/-- C3, witness: the order-independence theorem applied to a concrete
three-record snapshot and a rotation of it. -/
theorem fingerprint_order_independent_witness :
    fingerprint [[1, 2, 3], [4, 5], [6]] = fingerprint [[6], [1, 2, 3], [4, 5]] :=
  fingerprint_order_independent _ _ (by decide)

/-- The two 13-byte raw records used to refute claim C6: they agree on the
8 ownerID bytes and differ in the rawX/rawY/type bytes, yet have the same
CRC-32 checksum (`1041562226`), hence the same change fingerprint. -/
def collisionRec1 : List Nat := [0, 0, 0, 0, 0, 0, 0, 0, 239, 255, 168, 61, 221]

/-- The second record of the colliding pair; see `collisionRec1`. -/
def collisionRec2 : List Nat := [0, 0, 0, 0, 0, 0, 0, 0, 214, 247, 32, 56, 130]

set_option maxRecDepth 10000 in
/-- C6, counterexample: two snapshots whose raw-record multisets differ (one
marker's position/type bytes differ) but whose change fingerprints are
equal — the 32-bit CRC fold admits collisions, so a difference in a marker's
membership, position, owner or type does not always change the fingerprint. -/
theorem fingerprint_collision_counterexample :
    ¬ List.Perm [collisionRec1] [collisionRec2] ∧
    fingerprint [collisionRec1] = fingerprint [collisionRec2] := by
  constructor
  · decide
  · decide

/-- C6, amended: differing change fingerprints guarantee that the raw-record
multisets differ; the converse fails in general because the fingerprint is a
32-bit checksum (see the counterexample), so a change in membership,
position, owner or type changes the fingerprint only up to CRC-32
collisions. -/
theorem fingerprint_differs_implies_multiset_differs (l₁ l₂ : List (List Nat))
    (h : fingerprint l₁ ≠ fingerprint l₂) : ¬ List.Perm l₁ l₂ :=
  fun hp => h (fingerprint_perm hp)

set_option maxRecDepth 10000 in
/-- C6, witness: the amended theorem applied to two concrete snapshots with
different fingerprints. -/
theorem fingerprint_differs_witness :
    ¬ List.Perm [[0]] ([[1]] : List (List Nat)) :=
  fingerprint_differs_implies_multiset_differs _ _ (by decide)

/-- C4, counterexample: at `ownerID = 1000050000` — which is *not* below the
threshold `1_000_050_000` — the claim predicts the palette color
`palette[ownerID mod paletteSize]`, but `isTribeID` uses a strict `>` so
`getTribeColor` returns the neutral gray. -/
theorem getTribeColor_threshold_counterexample :
    getTribeColor 1000050000 = colorValues "gray" ∧
    getTribeColor 1000050000 ≠
      colorValues (colorsArr.getD (1000050000 % colorsArr.length) "") := by
  constructor
  · decide
  · decide

/-- C4, amended: for nonzero ownerID the owner is classified as an
individual player (neutral gray) when the ID is *at or below*
`1_000_050_000`; only IDs strictly above the threshold are groups, colored
`palette[ownerID mod paletteSize]`; ownerID 0 is the reserved black. -/
theorem getTribeColor_amended (id : Nat) :
    (id = 0 → getTribeColor id = colorValues "black") ∧
    (id ≠ 0 → id ≤ 1000050000 → getTribeColor id = colorValues "gray") ∧
    (1000050000 < id →
      getTribeColor id = colorValues (colorsArr.getD (id % colorsArr.length) "")) := by
  refine ⟨fun h => by simp [getTribeColor, h], fun h1 h2 => ?_, fun h => ?_⟩
  · unfold getTribeColor isTribeID
    rw [if_neg h1, if_pos]
    simp only [Bool.not_eq_true', decide_eq_false_iff_not]
    omega
  · unfold getTribeColor isTribeID
    rw [if_neg (by omega), if_neg]
    simp only [Bool.not_eq_true', decide_eq_false_iff_not, Decidable.not_not]
    omega

/-- C4, witness: the amended theorem applied at the three representative
IDs 0, 7 (an individual player) and 1000050001 (a group, palette slot 1). -/
theorem getTribeColor_amended_witness :
    getTribeColor 0 = colorValues "black" ∧
    getTribeColor 7 = colorValues "gray" ∧
    getTribeColor 1000050001 =
      colorValues (colorsArr.getD (1000050001 % colorsArr.length) "") :=
  ⟨(getTribeColor_amended 0).1 rfl,
   (getTribeColor_amended 7).2.1 (by decide) (by decide),
   (getTribeColor_amended 1000050001).2.2 (by decide)⟩

/-- Helper: the gutter filter as four explicit inequalities. -/
theorem gutterKeep_iff (c : Clip) (r px py : ℚ) :
    gutterKeep c r px py ↔
      (-r ≤ px - c.minX ∧ -r ≤ py - c.minY ∧
       px - c.minX < c.maxX + r ∧ py - c.minY < c.maxY + r) := by
  unfold gutterKeep
  push_neg
  tauto

/-- C2, counterexample: for the clip window `[0,100]²` with gutter radius
`10`, the entity at `(110, 50)` is returned by the quad-tree query (its box
touches the window) and lies inside the window expanded by the gutter on
every side (`110 ≤ 100 + 10`), yet the filter skips it: the code compares
the clip-relative coordinate `tX` against `Max.X + r` with `≥`, so the
exact upper gutter edge is dropped for origin windows — the processed set is
not exactly the expanded window. -/
theorem gutter_exactness_counterexample :
    queryHit ⟨0, 100, 0, 100⟩ 10 110 50 ∧
    insideExpanded ⟨0, 100, 0, 100⟩ 10 110 50 ∧
    ¬ gutterKeep ⟨0, 100, 0, 100⟩ 10 110 50 := by
  refine ⟨?_, ?_, ?_⟩
  · unfold queryHit
    norm_num
  · unfold insideExpanded
    norm_num
  · rw [gutterKeep_iff]
    norm_num

/-- C2, amended: among queried entities, every processed entity lies inside
the clip window expanded on every side by the virtual water radius, and
conversely every queried entity inside the expanded window is processed
except exactly at the upper gutter edge of an axis whose clip minimum is 0
(the code's upper cut-off compares the clip-relative coordinate against the
absolute `Max + r`, so for windows with positive minimum the query bound is
the effective upper limit); and a marker placed at
`tileBoundary - radius/2`, whose rendered circle overlaps the boundary
between two adjacent tile windows, is queried and processed by both
windows. -/
theorem gutter_amended :
    (∀ (c : Clip) (r px py : ℚ), 0 ≤ c.minX → 0 ≤ c.minY →
      queryHit c r px py →
      ((gutterKeep c r px py → insideExpanded c r px py) ∧
       (insideExpanded c r px py → (px < c.maxX + r ∨ 0 < c.minX) →
        (py < c.maxY + r ∨ 0 < c.minY) → gutterKeep c r px py))) ∧
    (∀ (v k r rad y H : ℚ), 1 ≤ v → 0 ≤ k → 1 ≤ r → 0 < rad → rad ≤ 2 * r →
      0 ≤ y → y ≤ H →
      (queryHit ⟨k * v, (k + 1) * v - 1, 0, H⟩ r ((k + 1) * v - rad / 2) y ∧
       gutterKeep ⟨k * v, (k + 1) * v - 1, 0, H⟩ r ((k + 1) * v - rad / 2) y ∧
       queryHit ⟨(k + 1) * v, (k + 2) * v - 1, 0, H⟩ r ((k + 1) * v - rad / 2) y ∧
       gutterKeep ⟨(k + 1) * v, (k + 2) * v - 1, 0, H⟩ r ((k + 1) * v - rad / 2) y)) := by
  constructor
  · intro c r px py hminX hminY hq
    obtain ⟨hq1, hq2, hq3, hq4⟩ := hq
    constructor
    · intro hk
      rw [gutterKeep_iff] at hk
      obtain ⟨k1, k2, k3, k4⟩ := hk
      exact ⟨by linarith, by linarith, by linarith, by linarith⟩
    · intro hin hx hy
      obtain ⟨i1, i2, i3, i4⟩ := hin
      rw [gutterKeep_iff]
      refine ⟨by linarith, by linarith, ?_, ?_⟩
      · rcases hx with h | h
        · linarith
        · linarith
      · rcases hy with h | h
        · linarith
        · linarith
  · intro v k r rad y H hv hk hr hrad hradr hy hyH
    have hkv : (0 : ℚ) ≤ k * v := mul_nonneg hk (by linarith)
    simp only [queryHit, gutterKeep_iff]
    refine ⟨⟨by linarith, by linarith, by linarith, by linarith⟩,
            ⟨by linarith, by linarith, by linarith, by linarith⟩,
            ⟨by linarith, by linarith, by linarith, by linarith⟩,
            ⟨by linarith, by linarith, by linarith, by linarith⟩⟩

/-- C2, witness: the amended theorem instantiated at the adjacent zoom-1
style windows `[0,99]²` and `[100,199]×[0,99]` with water radius 10 and a
marker at `x = 100 - 10/2 = 95`, `y = 50`: it is queried and processed by
both windows, and lies inside the first window's expanded region. -/
theorem gutter_amended_witness :
    insideExpanded ⟨0, 99, 0, 99⟩ 10 95 50 ∧
    queryHit ⟨0, 99, 0, 99⟩ 10 95 50 ∧ gutterKeep ⟨0, 99, 0, 99⟩ 10 95 50 ∧
    queryHit ⟨100, 199, 0, 99⟩ 10 95 50 ∧ gutterKeep ⟨100, 199, 0, 99⟩ 10 95 50 := by
  have h2 := gutter_amended.2 100 0 10 10 50 99 (by norm_num) (by norm_num)
    (by norm_num) (by norm_num) (by norm_num) (by norm_num) (by norm_num)
  norm_num at h2
  have h1 := (gutter_amended.1 ⟨0, 99, 0, 99⟩ 10 95 50 (by norm_num) (by norm_num)
    h2.1).1 h2.2.1
  exact ⟨h1, h2.1, h2.2.1, h2.2.2.1, h2.2.2.2⟩

/-- Helper: `readU16` inverts `putU16` on a 16-bit value. -/
theorem readU16_putU16 (v : Nat) (h : v < 65536) (rest : List Nat) :
    readU16 (putU16 v ++ rest) = some (v, rest) := by
  simp [readU16, putU16]
  omega

/-- Helper: `readU32` inverts `putU32` on a 32-bit value. -/
theorem readU32_putU32 (v : Nat) (h : v < 4294967296) (rest : List Nat) :
    readU32 (putU32 v ++ rest) = some (v, rest) := by
  simp [readU32, putU32, le32]
  omega

/-- Helper: `readU64` inverts `putU64` on a 64-bit value. -/
theorem readU64_putU64 (v : Nat) (h : v < 18446744073709551616) (rest : List Nat) :
    readU64 (putU64 v ++ rest) = some (v, rest) := by
  simp [readU64, putU64]
  omega

/-- Helper: the pair reader inverts the encoded claim entries. -/
theorem readPairs_encode (l : List ClaimFlagOutputEntry)
    (hb : ∀ e ∈ l, e.X < 65536 ∧ e.Y < 65536) (rest : List Nat) :
    readPairs l.length ((l.map encodeEntry).flatten ++ rest) = some (l, rest) := by
  induction l with
  | nil => simp [readPairs]
  | cons e t ih =>
    have he := hb e (by simp)
    have ht : ∀ x ∈ t, x.X < 65536 ∧ x.Y < 65536 := fun x hx => hb x (by simp [hx])
    simp only [List.map_cons, List.flatten_cons, List.length_cons, List.append_assoc]
    simp [readPairs, encodeEntry, List.append_assoc,
      readU16_putU16 _ he.1, readU16_putU16 _ he.2, ih ht]

/-- Helper: the owner-record reader inverts `encodeOwner`. -/
theorem readOwner_encode (k : FlagOwnerOutputHeader) (hwf : ownerWF k)
    (rest : List Nat) :
    readOwner (encodeOwner k ++ rest) = some (k, rest) := by
  obtain ⟨h1, h2, h3, h4, h5⟩ := hwf
  simp [readOwner, encodeOwner, List.append_assoc,
    readU64_putU64 _ h1, readU32_putU32 _ h2, readU32_putU32 _ h3,
    readPairs_encode _ h4, readPairs_encode _ h5]

/-- Helper: the repeated owner reader inverts the concatenated owner
records. -/
theorem readOwners_encode (l : List FlagOwnerOutputHeader)
    (hwf : ∀ k ∈ l, ownerWF k) (rest : List Nat) :
    readOwners l.length ((l.map encodeOwner).flatten ++ rest) = some (l, rest) := by
  induction l with
  | nil => simp [readOwners]
  | cons k t ih =>
    have hk := hwf k (by simp)
    have ht : ∀ x ∈ t, ownerWF x := fun x hx => hwf x (by simp [hx])
    simp [readOwners, List.append_assoc, readOwner_encode _ hk, ih ht]

/-- C5: the world snapshot byte stream written by `generateCompressedFile`
parses, under the claimed little-endian grammar, exactly as
`u16 formatVersion = 2`, `u16 encodingFlag = 1` (the fixed non-zero marker),
`u16 sourceResolution`, `u16 destResolution`, `u32 ownerCount`, then one
record per distinct owner — `u64 ownerID`, `u32 landClaimCount`,
`u32 waterClaimCount`, the land `(u16 x, u16 y)` pairs, then the water
pairs — with the owner records in strictly ascending `ownerID` order and
consuming the stream completely; the emitted owner sequence is a
permutation of the aggregates (one record per distinct owner). -/
theorem compressed_stream_layout (SrcPixels GameSize : Nat)
    (IDList : List FlagOwnerOutputHeader)
    (hsrc : SrcPixels < 65536) (hdest : GameSize < 65536)
    (hcnt : IDList.length < 4294967296)
    (hwf : ∀ k ∈ IDList, ownerWF k)
    (hdist : IDList.Pairwise (fun a b => a.TribeOrPlayerID ≠ b.TribeOrPlayerID)) :
    decodeSnapshot (generateCompressedBytes SrcPixels GameSize IDList) =
      some (2, 1, SrcPixels, GameSize, IDList.insertionSort ownerLe) ∧
    List.Chain' (fun a b => a.TribeOrPlayerID < b.TribeOrPlayerID)
      (IDList.insertionSort ownerLe) ∧
    List.Perm (IDList.insertionSort ownerLe) IDList := by
  have hperm := List.perm_insertionSort ownerLe IDList
  refine ⟨?_, ?_, hperm⟩
  · have hwf2 : ∀ k ∈ IDList.insertionSort ownerLe, ownerWF k :=
      fun k hk => hwf k ((List.mem_insertionSort ownerLe).mp hk)
    have hro := readOwners_encode (IDList.insertionSort ownerLe) hwf2 []
    rw [List.append_nil, List.length_insertionSort] at hro
    simp [decodeSnapshot, generateCompressedBytes, List.append_assoc,
      readU16_putU16 2 (by norm_num), readU16_putU16 1 (by norm_num),
      readU16_putU16 _ hsrc, readU16_putU16 _ hdest,
      readU32_putU32 _ hcnt, hro]
  · have hsorted : List.Sorted ownerLe (IDList.insertionSort ownerLe) :=
      List.sorted_insertionSort ownerLe IDList
    have hne : (IDList.insertionSort ownerLe).Pairwise
        (fun a b => a.TribeOrPlayerID ≠ b.TribeOrPlayerID) :=
      (hperm.pairwise_iff (fun {a b} hab => fun he => hab he.symm)).mpr hdist
    have hlt : (IDList.insertionSort ownerLe).Pairwise
        (fun a b => a.TribeOrPlayerID < b.TribeOrPlayerID) :=
      (hsorted.and hne).imp (fun {a b} hab => Nat.lt_of_le_of_ne hab.1 hab.2)
    exact hlt.chain'

/-- C5, witness: the layout theorem applied to a concrete two-owner
snapshot (source resolution 4096, game size 2048). -/
theorem compressed_stream_layout_witness :
    decodeSnapshot (generateCompressedBytes 4096 2048
        [⟨7, [⟨1, 2⟩], []⟩, ⟨3, [], [⟨5, 6⟩]⟩]) =
      some (2, 1, 4096, 2048,
        ([⟨7, [⟨1, 2⟩], []⟩, ⟨3, [], [⟨5, 6⟩]⟩] :
          List FlagOwnerOutputHeader).insertionSort ownerLe) ∧
    List.Chain' (fun a b => a.TribeOrPlayerID < b.TribeOrPlayerID)
      (([⟨7, [⟨1, 2⟩], []⟩, ⟨3, [], [⟨5, 6⟩]⟩] :
          List FlagOwnerOutputHeader).insertionSort ownerLe) ∧
    List.Perm
      (([⟨7, [⟨1, 2⟩], []⟩, ⟨3, [], [⟨5, 6⟩]⟩] :
          List FlagOwnerOutputHeader).insertionSort ownerLe)
      [⟨7, [⟨1, 2⟩], []⟩, ⟨3, [], [⟨5, 6⟩]⟩] :=
  compressed_stream_layout 4096 2048 _ (by norm_num) (by norm_num)
    (by norm_num) (by decide) (by decide)

/-- C9: `generateCompressedFile` performs no range check before the
`uint16` conversion of a pixel coordinate: every entity admitted by the
gutter filter is appended to the owner's claim list with coordinates
`uint16(iX), uint16(iY)` — the raw truncate-and-wrap conversion — and for a
coordinate that truncates to a negative integer in `(-2^16, -1]` the stored
value is the two's-complement wrap `2^16 + trunc(iX)`, which is nonzero,
i.e. neither clamped to the window nor excluded. -/
theorem compressed_no_range_check (c : Clip) (r s px py : ℚ)
    (hkeep : gutterKeep c r px py) :
    processEntity c r s px py =
      some (goFloatToUInt16 ((px - c.minX) * s), goFloatToUInt16 ((py - c.minY) * s)) ∧
    (∀ t : ℚ, ratTrunc t ≤ -1 → -65536 < ratTrunc t →
      goFloatToUInt16 t = (65536 + ratTrunc t).toNat ∧ goFloatToUInt16 t ≠ 0) := by
  constructor
  · unfold processEntity
    rw [if_pos hkeep]
  · intro t h1 h2
    unfold goFloatToUInt16
    omega

/-- C9, witness: in the window `[0,100]²` with gutter radius 10 and scale 1,
the entity at `(-5, 50)` — left of the window but inside the gutter — is
admitted and encoded as `(65531, 50)`: the x coordinate wraps to
`2^16 - 5` instead of being clamped to 0 or dropped. -/
theorem compressed_no_range_check_witness :
    processEntity ⟨0, 100, 0, 100⟩ 10 1 (-5) 50 = some (65531, 50) ∧
    (65531 : Nat) ≠ 0 := by
  have h := compressed_no_range_check ⟨0, 100, 0, 100⟩ 10 1 (-5) 50
    (by rw [gutterKeep_iff]; norm_num)
  refine ⟨?_, by norm_num⟩
  rw [h.1]
  have e1 : (((-5 : ℚ) - 0) * 1) = -5 := by norm_num
  have e2 : (((50 : ℚ) - 0) * 1) = 50 := by norm_num
  rw [e1, e2]
  have e3 : goFloatToUInt16 (-5 : ℚ) = 65531 := by decide
  have e4 : goFloatToUInt16 (50 : ℚ) = 50 := by decide
  rw [e3, e4]

/-- Helper: a job is issued by `generateTiles` exactly for the tile indices
`tileX, tileY < 2^zoomLevel`, with the clip corners and resolutions the
source computes. -/
theorem mem_generateTiles (TileSize MaxZoom zoomLevel : Nat) (job : TileJob) :
    job ∈ generateTiles TileSize MaxZoom zoomLevel ↔
      ∃ tX, tX < 2 ^ zoomLevel ∧ ∃ tY, tY < 2 ^ zoomLevel ∧
        job = ⟨tX, tY, tX * (TileSize * 2 ^ (MaxZoom - 1) / 2 ^ zoomLevel),
               tX * (TileSize * 2 ^ (MaxZoom - 1) / 2 ^ zoomLevel) +
                 (TileSize * 2 ^ (MaxZoom - 1) / 2 ^ zoomLevel) - 1,
               tY * (TileSize * 2 ^ (MaxZoom - 1) / 2 ^ zoomLevel),
               tY * (TileSize * 2 ^ (MaxZoom - 1) / 2 ^ zoomLevel) +
                 (TileSize * 2 ^ (MaxZoom - 1) / 2 ^ zoomLevel) - 1,
               TileSize, TileSize * 2 ^ (MaxZoom - 1)⟩ := by
  unfold generateTiles
  simp [List.mem_flatten, List.mem_map, List.mem_range]
  constructor
  · rintro ⟨tX, htX, tY, htY, rfl⟩
    exact ⟨tX, htX, tY, htY, rfl⟩
  · rintro ⟨tX, htX, tY, htY, rfl⟩
    exact ⟨tX, htX, tY, htY, rfl⟩

/-- C8: for every zoom level `z < maxZoom` (with a positive tile size),
`generateTiles` uses the virtual extent `tileSize * 2^(maxZoom-1)` per axis
independent of `z`, produces exactly `2^z * 2^z` tiles, gives tile
`(tileX, tileY)` the inclusive clip rectangle
`[tileX*v, tileX*v+v-1] × [tileY*v, tileY*v+v-1]` with
`v = virtualExtent / 2^z` (the division being exact, so the per-axis
intervals are disjoint and cover the extent: every virtual coordinate below
the extent lies in exactly one tile interval), and renders every tile at the
fixed actual pixel size `tileSize`. -/
theorem generateTiles_pyramid (TileSize MaxZoom zoomLevel : Nat)
    (hz : zoomLevel < MaxZoom) (hts : 0 < TileSize) :
    (generateTiles TileSize MaxZoom zoomLevel).length = 2 ^ zoomLevel * 2 ^ zoomLevel ∧
    (TileSize * 2 ^ (MaxZoom - 1) / 2 ^ zoomLevel) * 2 ^ zoomLevel =
      TileSize * 2 ^ (MaxZoom - 1) ∧
    (∀ job ∈ generateTiles TileSize MaxZoom zoomLevel,
      job.actualPixels = TileSize ∧
      job.virtualPixels = TileSize * 2 ^ (MaxZoom - 1) ∧
      job.tileX < 2 ^ zoomLevel ∧ job.tileY < 2 ^ zoomLevel ∧
      job.minX = job.tileX * (TileSize * 2 ^ (MaxZoom - 1) / 2 ^ zoomLevel) ∧
      job.maxX = job.minX + (TileSize * 2 ^ (MaxZoom - 1) / 2 ^ zoomLevel) - 1 ∧
      job.minY = job.tileY * (TileSize * 2 ^ (MaxZoom - 1) / 2 ^ zoomLevel) ∧
      job.maxY = job.minY + (TileSize * 2 ^ (MaxZoom - 1) / 2 ^ zoomLevel) - 1) ∧
    (∀ tX tY, tX < 2 ^ zoomLevel → tY < 2 ^ zoomLevel →
      ∃ job ∈ generateTiles TileSize MaxZoom zoomLevel,
        job.tileX = tX ∧ job.tileY = tY) ∧
    (∀ p, p < TileSize * 2 ^ (MaxZoom - 1) →
      ∃! i, i < 2 ^ zoomLevel ∧
        i * (TileSize * 2 ^ (MaxZoom - 1) / 2 ^ zoomLevel) ≤ p ∧
        p ≤ i * (TileSize * 2 ^ (MaxZoom - 1) / 2 ^ zoomLevel) +
            (TileSize * 2 ^ (MaxZoom - 1) / 2 ^ zoomLevel) - 1) := by
  have hpow : (0 : Nat) < 2 ^ zoomLevel := pow_pos (by norm_num) _
  have hzz : MaxZoom - 1 - zoomLevel + zoomLevel = MaxZoom - 1 := by omega
  have hsplit : TileSize * 2 ^ (MaxZoom - 1) =
      TileSize * 2 ^ (MaxZoom - 1 - zoomLevel) * 2 ^ zoomLevel := by
    rw [mul_assoc, ← pow_add, hzz]
  have hv : TileSize * 2 ^ (MaxZoom - 1) / 2 ^ zoomLevel =
      TileSize * 2 ^ (MaxZoom - 1 - zoomLevel) := by
    rw [hsplit, Nat.mul_div_cancel _ hpow]
  have hvpos : 0 < TileSize * 2 ^ (MaxZoom - 1) / 2 ^ zoomLevel := by
    rw [hv]
    exact Nat.mul_pos hts (pow_pos (by norm_num) _)
  refine ⟨?_, ?_, ?_, ?_, ?_⟩
  · unfold generateTiles
    simp [List.length_flatten, List.map_map, Function.comp_def]
  · rw [hv]
    exact hsplit.symm
  · intro job hjob
    rw [mem_generateTiles] at hjob
    obtain ⟨tX, htX, tY, htY, rfl⟩ := hjob
    exact ⟨rfl, rfl, htX, htY, rfl, rfl, rfl, rfl⟩
  · intro tX tY htX htY
    refine ⟨⟨tX, tY, tX * (TileSize * 2 ^ (MaxZoom - 1) / 2 ^ zoomLevel),
            tX * (TileSize * 2 ^ (MaxZoom - 1) / 2 ^ zoomLevel) +
              (TileSize * 2 ^ (MaxZoom - 1) / 2 ^ zoomLevel) - 1,
            tY * (TileSize * 2 ^ (MaxZoom - 1) / 2 ^ zoomLevel),
            tY * (TileSize * 2 ^ (MaxZoom - 1) / 2 ^ zoomLevel) +
              (TileSize * 2 ^ (MaxZoom - 1) / 2 ^ zoomLevel) - 1,
            TileSize, TileSize * 2 ^ (MaxZoom - 1)⟩, ?_, rfl, rfl⟩
    rw [mem_generateTiles]
    exact ⟨tX, htX, tY, htY, rfl⟩
  · intro p hp
    have hpv : p < (TileSize * 2 ^ (MaxZoom - 1) / 2 ^ zoomLevel) * 2 ^ zoomLevel := by
      rw [hv]
      rw [hsplit] at hp
      exact hp
    refine ⟨p / (TileSize * 2 ^ (MaxZoom - 1) / 2 ^ zoomLevel), ⟨?_, ?_, ?_⟩, ?_⟩
    · exact (Nat.div_lt_iff_lt_mul hvpos).mpr (by rw [Nat.mul_comm] at hpv; exact hpv)
    · exact Nat.div_mul_le_self p _
    · have h1 : p < (p / (TileSize * 2 ^ (MaxZoom - 1) / 2 ^ zoomLevel) + 1) *
          (TileSize * 2 ^ (MaxZoom - 1) / 2 ^ zoomLevel) :=
        (Nat.div_lt_iff_lt_mul hvpos).mp (Nat.lt_succ_self _)
      have h2 : (p / (TileSize * 2 ^ (MaxZoom - 1) / 2 ^ zoomLevel) + 1) *
          (TileSize * 2 ^ (MaxZoom - 1) / 2 ^ zoomLevel) =
          p / (TileSize * 2 ^ (MaxZoom - 1) / 2 ^ zoomLevel) *
          (TileSize * 2 ^ (MaxZoom - 1) / 2 ^ zoomLevel) +
          (TileSize * 2 ^ (MaxZoom - 1) / 2 ^ zoomLevel) := by ring
      omega
    · rintro j ⟨hj1, hj2, hj3⟩
      have hle : j ≤ p / (TileSize * 2 ^ (MaxZoom - 1) / 2 ^ zoomLevel) :=
        (Nat.le_div_iff_mul_le hvpos).mpr hj2
      have h2 : (j + 1) * (TileSize * 2 ^ (MaxZoom - 1) / 2 ^ zoomLevel) =
          j * (TileSize * 2 ^ (MaxZoom - 1) / 2 ^ zoomLevel) +
          (TileSize * 2 ^ (MaxZoom - 1) / 2 ^ zoomLevel) := by ring
      have hlt : p / (TileSize * 2 ^ (MaxZoom - 1) / 2 ^ zoomLevel) < j + 1 := by
        apply (Nat.div_lt_iff_lt_mul hvpos).mpr
        omega
      omega

/-- C8, witness: the pyramid theorem applied at tile size 2, max zoom 2,
zoom level 1 (extent 4, two tiles of virtual width 2 per axis). -/
theorem generateTiles_pyramid_witness :
    (generateTiles 2 2 1).length = 2 ^ 1 * 2 ^ 1 ∧
    (2 * 2 ^ (2 - 1) / 2 ^ 1) * 2 ^ 1 = 2 * 2 ^ (2 - 1) ∧
    (∀ job ∈ generateTiles 2 2 1,
      job.actualPixels = 2 ∧
      job.virtualPixels = 2 * 2 ^ (2 - 1) ∧
      job.tileX < 2 ^ 1 ∧ job.tileY < 2 ^ 1 ∧
      job.minX = job.tileX * (2 * 2 ^ (2 - 1) / 2 ^ 1) ∧
      job.maxX = job.minX + (2 * 2 ^ (2 - 1) / 2 ^ 1) - 1 ∧
      job.minY = job.tileY * (2 * 2 ^ (2 - 1) / 2 ^ 1) ∧
      job.maxY = job.minY + (2 * 2 ^ (2 - 1) / 2 ^ 1) - 1) ∧
    (∀ tX tY, tX < 2 ^ 1 → tY < 2 ^ 1 →
      ∃ job ∈ generateTiles 2 2 1, job.tileX = tX ∧ job.tileY = tY) ∧
    (∀ p, p < 2 * 2 ^ (2 - 1) →
      ∃! i, i < 2 ^ 1 ∧
        i * (2 * 2 ^ (2 - 1) / 2 ^ 1) ≤ p ∧
        p ≤ i * (2 * 2 ^ (2 - 1) / 2 ^ 1) + (2 * 2 ^ (2 - 1) / 2 ^ 1) - 1) :=
  generateTiles_pyramid 2 2 1 (by decide) (by decide)

/-- C7: in each background worker loop, when the fingerprint of the freshly
fetched snapshot equals the stored one the cycle performs no generation (and
hence no artifact write) and leaves the state unchanged; and running a cycle
twice on byte-identical snapshots never generates on the second run. -/
theorem worker_skip_on_no_change (previousCrc : Nat) (records : List (List Nat)) :
    (fingerprint records = previousCrc →
      tileWorkerCycle previousCrc records = (previousCrc, false) ∧
      gameWorkerCycle previousCrc records = (previousCrc, false)) ∧
    (tileWorkerCycle (tileWorkerCycle previousCrc records).1 records).2 = false ∧
    (gameWorkerCycle (gameWorkerCycle previousCrc records).1 records).2 = false := by
  unfold tileWorkerCycle gameWorkerCycle
  by_cases h : fingerprint records = previousCrc <;> simp [h]

/-- C7, witness: the skip theorem applied to the empty snapshot with the
matching stored fingerprint. -/
theorem worker_skip_witness :
    tileWorkerCycle (fingerprint []) [] = (fingerprint [], false) ∧
    gameWorkerCycle (fingerprint []) [] = (fingerprint [], false) :=
  (worker_skip_on_no_change (fingerprint []) []).1 rfl

end AtlasMap
